import Mathlib

/-!
# Verification of the Simple Logic interpreter (`src/index.js`)

This file shallowly embeds the core of the Simple Logic extension: the
expression evaluator (`parseExpression`) and the line-oriented block
interpreter (`evaluateLogic`) from `src/index.js`, together with the
variable-store helpers (`getVariable` / `setVariable` / `normalizeValue`).

Conventions of the embedding:
* JavaScript numbers are modelled as exact fractions (`JNum`, an integer
  numerator over a natural denominator, compared by cross-multiplication);
  `NaN` is modelled as `Option.none` at the points where the source checks
  `isNaN`/`isFinite`. All numeric values the interpreter manipulates come
  from decimal literal parses, so no rounding behaviour is involved.
* `Math.random()` is modelled as an ambient stream `rand : Nat -> JNum`
  held in the environment; a counter in the interpreter state selects the
  next draws (each `parseExpression` call consumes two positions, one per
  operand resolution).
* The external collaborators (SillyTavern's `substituteParams`, the chat
  log, the global variable map) are parameters of the environment; the
  variable store is an association list of string keys to the raw string
  values that `setVariable` persists.
* All string manipulation is done on `List Char` so that every definition
  evaluates by kernel reduction; the helpers mirror the exact JavaScript
  operations used by the source (ASCII case mapping, `\r?\n` splitting,
  `split("=")`, `substring`, `trim`, prefix tests).
-/

namespace SimpleLogic

/-- JS whitespace (the ASCII part), as used by `trim`, `\s` and `parseFloat`. -/
def wsChar (c : Char) : Bool :=
  c == ' ' || c == '\t' || c == '\n' || c == '\r' || c == '\x0b' || c == '\x0c'

/-- ASCII upper-casing of a character, as `toUpperCase` acts on the ASCII
scripts this interpreter processes. -/
def upChar (c : Char) : Char :=
  match c with
  | 'a' => 'A' | 'b' => 'B' | 'c' => 'C' | 'd' => 'D' | 'e' => 'E' | 'f' => 'F'
  | 'g' => 'G' | 'h' => 'H' | 'i' => 'I' | 'j' => 'J' | 'k' => 'K' | 'l' => 'L'
  | 'm' => 'M' | 'n' => 'N' | 'o' => 'O' | 'p' => 'P' | 'q' => 'Q' | 'r' => 'R'
  | 's' => 'S' | 't' => 'T' | 'u' => 'U' | 'v' => 'V' | 'w' => 'W' | 'x' => 'X'
  | 'y' => 'Y' | 'z' => 'Z'
  | other => other

/-- ASCII lower-casing of a character (`toLowerCase`). -/
def lowChar (c : Char) : Char :=
  match c with
  | 'A' => 'a' | 'B' => 'b' | 'C' => 'c' | 'D' => 'd' | 'E' => 'e' | 'F' => 'f'
  | 'G' => 'g' | 'H' => 'h' | 'I' => 'i' | 'J' => 'j' | 'K' => 'k' | 'L' => 'l'
  | 'M' => 'm' | 'N' => 'n' | 'O' => 'o' | 'P' => 'p' | 'Q' => 'q' | 'R' => 'r'
  | 'S' => 's' | 'T' => 't' | 'U' => 'u' | 'V' => 'v' | 'W' => 'w' | 'X' => 'x'
  | 'Y' => 'y' | 'Z' => 'z'
  | other => other

/-- Model of `s.toUpperCase()` (ASCII). -/
def upStr (s : String) : String := ⟨s.data.map upChar⟩

/-- Model of `s.toLowerCase()` (ASCII). -/
def lowStr (s : String) : String := ⟨s.data.map lowChar⟩

/-- Model of `s.trim()`: strip leading and trailing whitespace. -/
def trimS (s : String) : String :=
  ⟨((s.data.dropWhile wsChar).reverse.dropWhile wsChar).reverse⟩

/-- List-level prefix test (`String.prototype.startsWith`). -/
def startsWithL : List Char → List Char → Bool
  | _, [] => true
  | [], _ :: _ => false
  | a :: as, b :: bs => a == b && startsWithL as bs

/-- Model of `s.startsWith(p)`. -/
def startsWithS (s p : String) : Bool := startsWithL s.data p.data

/-- Model of `s.endsWith(p)`. -/
def endsWithS (s p : String) : Bool := startsWithL s.data.reverse p.data.reverse

/-- Model of `s.substring(n)`: drop the first `n` characters. -/
def dropS (n : Nat) (s : String) : String := ⟨s.data.drop n⟩

/-- Drop the last `n` characters (used to model `slice(1, -1)` together
with `dropS`). -/
def dropRightS (n : Nat) (s : String) : String := ⟨s.data.take (s.data.length - n)⟩

/-- Model of `s.split(sep)` for a single-character separator (as in `split("=")`). -/
def jsSplit (sep : Char) : List Char → List Char → List String
  | [], acc => [⟨acc.reverse⟩]
  | c :: rest, acc =>
    if c == sep then ⟨acc.reverse⟩ :: jsSplit sep rest []
    else jsSplit sep rest (c :: acc)

/-- Model of `script.split(/\r?\n/)`: split on `"\r\n"` or `"\n"`; a lone `'\r'` is
ordinary content. -/
def splitCRLF : List Char → List Char → List String
  | [], acc => [⟨acc.reverse⟩]
  | '\n' :: rest, acc => ⟨acc.reverse⟩ :: splitCRLF rest []
  | '\r' :: '\n' :: rest, acc => ⟨acc.reverse⟩ :: splitCRLF rest []
  | c :: rest, acc => splitCRLF rest (c :: acc)

/-- Does the needle occur as a prefix? (helper for `includesL`). -/
def includesL : List Char → List Char → Bool
  | [], needle => needle.isEmpty
  | hay@(_ :: t), needle => startsWithL hay needle || includesL t needle

/-- Model of `haystack.includes(needle)`. -/
def strIncludes (hay needle : String) : Bool := includesL hay.data needle.data

/-- Fueled global replacement of a plain (nonempty) pattern, left to right,
non-overlapping, as `String.prototype.replace` with a `/g` regex of a
literal pattern. -/
def replaceAllF : Nat → List Char → List Char → List Char → List Char
  | 0, hay, _, _ => hay
  | _ + 1, [], _, _ => []
  | fuel + 1, hay@(c :: rest), pat, rep =>
    if startsWithL hay pat then rep ++ replaceAllF fuel (hay.drop pat.length) pat rep
    else c :: replaceAllF fuel rest pat rep

/-- Model of `s.replace(/pat/g, rep)` for a literal pattern. -/
def replaceAllS (s pat rep : String) : String :=
  ⟨replaceAllF (s.data.length + 1) s.data pat.data rep.data⟩

/-- A JavaScript number, modelled as an exact fraction with explicit
integer numerator and natural denominator and NO normalization, so that
every arithmetic step evaluates by kernel reduction. All values the
interpreter constructs have a positive denominator. Two `JNum`s denote the
same number when they cross-multiply equal (`jnEq`); the interpreter never
uses structural equality on numbers. -/
structure JNum where
  n : ℤ
  d : ℕ
deriving DecidableEq

instance (k : ℕ) : OfNat JNum k := ⟨⟨k, 1⟩⟩

/-- Negation. -/
def jnNeg (a : JNum) : JNum := ⟨-a.n, a.d⟩

/-- Multiply by `10 ^ k`. -/
def jnMulPow10 (a : JNum) (k : ℕ) : JNum := ⟨a.n * 10 ^ k, a.d⟩

/-- Divide by `10 ^ k`. -/
def jnDivPow10 (a : JNum) (k : ℕ) : JNum := ⟨a.n, a.d * 10 ^ k⟩

/-- Numeric equality by cross multiplication (denominators of reachable
values are positive). -/
def jnEq (a b : JNum) : Bool := a.n * (b.d : ℤ) == b.n * (a.d : ℤ)

/-- Numeric strict order by cross multiplication. -/
def jnLt (a b : JNum) : Bool := decide (a.n * (b.d : ℤ) < b.n * (a.d : ℤ))

/-- Value of a list of decimal digit characters, most significant first. -/
def digitsVal (l : List Char) : ℕ :=
  l.foldl (fun a c => a * 10 + (c.toNat - 48)) 0

/-- The exact value of a decimal numeral `ip.fp`. -/
def decValue (ip fp : List Char) : JNum :=
  ⟨(digitsVal ip * 10 ^ fp.length + digitsVal fp : ℕ), 10 ^ fp.length⟩

/-- JS `parseFloat`: skip leading whitespace, parse an optional sign and the
longest numeric prefix (integer part, optional fraction, optional exponent);
`none` models `NaN` (no digits at all). Hexadecimal input parses only its
leading `0`, exactly as `parseFloat` does. The numeral's exact value is
used (the nearest-double rounding of the host is immaterial at the scale of
the interpreter's literals). -/
def jsParseFloat (s : String) : Option JNum :=
  let cs := s.data.dropWhile wsChar
  let (neg, cs) :=
    match cs with
    | '-' :: r => (true, r)
    | '+' :: r => (false, r)
    | r => (false, r)
  let ip := cs.takeWhile Char.isDigit
  let rest := cs.drop ip.length
  let (fp, rest2) :=
    match rest with
    | '.' :: r => (r.takeWhile Char.isDigit, r.drop (r.takeWhile Char.isDigit).length)
    | r => ([], r)
  if ip.isEmpty && fp.isEmpty then none
  else
    let base := decValue ip fp
    let withExp :=
      match rest2 with
      | e :: r =>
        if e == 'e' || e == 'E' then
          let (eneg, r2) :=
            match r with
            | '-' :: rr => (true, rr)
            | '+' :: rr => (false, rr)
            | rr => (false, rr)
          let ed := r2.takeWhile Char.isDigit
          if ed.isEmpty then base
          else if eneg then jnDivPow10 base (digitsVal ed) else jnMulPow10 base (digitsVal ed)
        else base
      | [] => base
    some (if neg then jnNeg withExp else withExp)

/-- Hex digit value, if any. -/
def hexVal (c : Char) : Option ℕ :=
  if c.isDigit then some (c.toNat - 48)
  else if 97 ≤ c.toNat ∧ c.toNat ≤ 102 then some (c.toNat - 87)
  else if 65 ≤ c.toNat ∧ c.toNat ≤ 70 then some (c.toNat - 55)
  else none

/-- Whole-string decimal parse used by `jsToNumber` below. -/
def parseDecWhole (cs : List Char) : Option JNum :=
  let (neg, cs) :=
    match cs with
    | '-' :: r => (true, r)
    | '+' :: r => (false, r)
    | r => (false, r)
  let ip := cs.takeWhile Char.isDigit
  let rest := cs.drop ip.length
  let (fp, rest2) :=
    match rest with
    | '.' :: r => (r.takeWhile Char.isDigit, r.drop (r.takeWhile Char.isDigit).length)
    | r => ([], r)
  if ip.isEmpty && fp.isEmpty then none
  else
    let base := decValue ip fp
    let expPart : Option JNum :=
      match rest2 with
      | [] => some base
      | e :: r =>
        if e == 'e' || e == 'E' then
          let (eneg, r2) :=
            match r with
            | '-' :: rr => (true, rr)
            | '+' :: rr => (false, rr)
            | rr => (false, rr)
          let ed := r2.takeWhile Char.isDigit
          if ed.isEmpty || !(r2.drop ed.length).isEmpty then none
          else some (if eneg then jnDivPow10 base (digitsVal ed) else jnMulPow10 base (digitsVal ed))
        else none
    expPart.map fun v => if neg then jnNeg v else v

/-- Whole-string hex parse (`Number("0x...")`). -/
def parseHexWhole : List Char → Option ℕ
  | [] => none
  | [c] => hexVal c
  | c :: rest => do
    let d ← hexVal c
    let r ← parseHexWhole rest
    pure (d * 16 ^ rest.length + r)

/-- JS `Number(string)` restricted to finite results: `none` models both
`NaN` and the infinities, which is exactly what the source's
`isFinite(val)` checks reject. The empty (or all-whitespace) string
converts to `0`. -/
def jsToNumber (s : String) : Option JNum :=
  let t := (s.data.dropWhile wsChar).reverse.dropWhile wsChar |>.reverse
  if t.isEmpty then some 0
  else if startsWithL t ['0', 'x'] || startsWithL t ['0', 'X'] then
    (parseHexWhole (t.drop 2)).map (fun n => (⟨n, 1⟩ : JNum))
  else if t = ['I','n','f','i','n','i','t','y'] || t = ['-','I','n','f','i','n','i','t','y']
      || t = ['+','I','n','f','i','n','i','t','y'] then
    none
  else parseDecWhole t

/-- Digits of a natural number, most significant first. -/
def natDigits : Nat → Nat → List Char
  | 0, _ => []
  | fuel + 1, n =>
    if n < 10 then [Char.ofNat (48 + n)]
    else natDigits fuel (n / 10) ++ [Char.ofNat (48 + n % 10)]

/-- Decimal rendering of a natural number. -/
def natToStr (n : Nat) : String := ⟨natDigits (n + 1) n⟩

/-- JS `Number.prototype.toString` for the values this interpreter can
produce: integers render plainly, and any value with a finite decimal
expansion (every value reachable from the scripts' decimal literals and
from binary-fraction random draws) renders as its shortest exact decimal.
The final fallback renders `num/den` and is unreachable for such values. -/
def jnToStringNN (q : JNum) : String :=
  match (List.range 64).find? (fun k => (q.n * 10 ^ k) % (q.d : ℤ) == 0) with
  | some 0 => natToStr (q.n / (q.d : ℤ)).toNat
  | some (k + 1) =>
    let scaled := ((q.n * 10 ^ (k + 1)) / (q.d : ℤ)).toNat
    let ipart := scaled / 10 ^ (k + 1)
    let fpart := scaled % 10 ^ (k + 1)
    let fdigits := natToStr fpart
    let pad := String.mk (List.replicate ((k + 1) - fdigits.data.length) '0')
    natToStr ipart ++ "." ++ pad ++ fdigits
  | none => natToStr q.n.toNat ++ "/" ++ natToStr q.d

/-- See `jnToStringNN`; negative values get a leading minus sign. -/
def jnToString (q : JNum) : String :=
  if q.n < 0 then "-" ++ jnToStringNN (jnNeg q) else jnToStringNN q

/-- A primitive JavaScript value as flowing through the evaluator:
a (finite) number, a string, or a boolean. -/
inductive JSVal where
  | num (q : JNum)
  | str (s : String)
  | boolv (b : Bool)
deriving DecidableEq

/-- Model of `String(v)`. -/
def jsToString : JSVal → String
  | .num q => jnToString q
  | .str s => s
  | .boolv b => if b then "true" else "false"

/-- Model of `ToNumber(v)`; `none` models `NaN`. -/
def toNumber : JSVal → Option JNum
  | .num q => some q
  | .boolv b => some (if b then 1 else 0)
  | .str s => jsToNumber s

/-- Lexicographic (code-point) order on strings, as JS compares two
string operands. -/
def strLt (a b : String) : Bool := decide (a.data < b.data)

/-- The JS abstract relational comparison `v1 < v2`; `none` models the
`undefined` outcome (a `NaN` operand). Two strings compare
lexicographically, otherwise both sides convert to numbers. -/
def jsLtOpt (v1 v2 : JSVal) : Option Bool :=
  match v1, v2 with
  | .str a, .str b => some (strLt a b)
  | _, _ =>
    match toNumber v1, toNumber v2 with
    | some a, some b => some (jnLt a b)
    | _, _ => none

/-- Comparison `v1 < v2` (NaN compares false). -/
def jsLt (v1 v2 : JSVal) : Bool := (jsLtOpt v1 v2).getD false

/-- Comparison `v1 > v2` (NaN compares false). -/
def jsGt (v1 v2 : JSVal) : Bool := (jsLtOpt v2 v1).getD false

/-- Comparison `v1 <= v2`: the negation of `v2 < v1`, except that NaN gives false. -/
def jsLe (v1 v2 : JSVal) : Bool :=
  match jsLtOpt v2 v1 with
  | some b => !b
  | none => false

/-- Comparison `v1 >= v2`: the negation of `v1 < v2`, except that NaN gives false. -/
def jsGe (v1 v2 : JSVal) : Bool :=
  match jsLtOpt v1 v2 with
  | some b => !b
  | none => false

/-- JS loose equality `==` on primitive values: booleans convert to
numbers, a number and a string compare after converting the string to a
number (NaN never equal), same-type operands compare directly. -/
def jsEq (v1 v2 : JSVal) : Bool :=
  match v1, v2 with
  | .num a, .num b => jnEq a b
  | .str a, .str b => a == b
  | .boolv a, .boolv b => a == b
  | .num a, .boolv b => jnEq a (if b then 1 else 0)
  | .boolv a, .num b => jnEq (if a then 1 else 0) b
  | .num a, .str s =>
    match jsToNumber s with
    | some b => jnEq a b
    | none => false
  | .str s, .num b =>
    match jsToNumber s with
    | some a => jnEq a b
    | none => false
  | .str s, .boolv b =>
    match jsToNumber s with
    | some a => jnEq a (if b then 1 else 0)
    | none => false
  | .boolv a, .str s =>
    match jsToNumber s with
    | some b => jnEq (if a then 1 else 0) b
    | none => false

/-- Lookup in the variable store (an association list standing for the
global variable map the extension writes through `setVariable`). -/
def lookupVar (vars : List (String × String)) (k : String) : Option String :=
  (vars.find? (fun p => p.1 == k)).map (·.2)

/-- Model of `Map.set` / property-write semantics: overwrite the existing binding or
add a new one. -/
def setVar (vars : List (String × String)) (k v : String) : List (String × String) :=
  if (vars.find? (fun p => p.1 == k)).isSome then
    vars.map (fun p => if p.1 == k then (k, v) else p)
  else vars ++ [(k, v)]

/-- Model of `normalizeValue` (src/index.js:42-47): a stored string whose prefix
parses as a number AND which is finite as a whole (`isFinite(val)`) comes
back as that parsed number; the exact strings `"true"`/`"false"`
(case-SENSITIVE `===` comparison) come back as booleans; everything else
stays a string. -/
def normalizeValue (val : String) : JSVal :=
  match jsParseFloat val with
  | some q => if (jsToNumber val).isSome then .num q else normalizeRest val
  | none => normalizeRest val
where
  normalizeRest (val : String) : JSVal :=
    if val == "true" then .boolv true
    else if val == "false" then .boolv false
    else .str val

/-- Model of `getVariable` (src/index.js:13-40): read the raw stored string and
normalize it; `none` models the `null` returned for an absent key. -/
def getVariable (vars : List (String × String)) (k : String) : Option JSVal :=
  (lookupVar vars k).map normalizeValue

/-- An operand handed to `resolve`: either the literal number `0`
substituted for a missing left-hand side, or a raw token string. -/
inductive Operand where
  | num (q : JNum)
  | tok (s : String)
deriving DecidableEq

/-- The `{{...}}` / `{{getvar::...}}` wrapper cleanup inside `resolve`
(src/index.js:150-155): strip a leading `\x7b\x7b` plus whitespace plus an
optional `getvar::`, strip a trailing `\x7d\x7d`, then trim. -/
def cleanVar (s : String) : String :=
  if startsWithS s "\x7b\x7b" then
    let t : List Char := (s.data.drop 2).dropWhile wsChar
    let t := if startsWithL t ("getvar::".data) then t.drop 8 else t
    let t := if startsWithL t.reverse ("\x7d\x7d".data.reverse) then t.take (t.length - 2) else t
    trimS ⟨t⟩
  else s

/-- Does the token consist only of operator characters (`/^[=><!]+$/`)? -/
def isOpChar (c : Char) : Bool := c == '=' || c == '>' || c == '<' || c == '!'

/-- Nonempty run of operator characters. -/
def isOpRun (s : String) : Bool := !s.data.isEmpty && s.data.all isOpChar

/-- Model of `resolve` (src/index.js:140-161): a quoted token is a string literal;
a token with a numeric prefix is that number (note: no `isFinite` check
here, unlike `normalizeValue`); case-insensitive `true`/`false` are
booleans; case-insensitive `RANDOM` draws a random number (the draw `rnd`
is supplied by the caller); anything else is a variable reference, with
absent variables resolving to `0`. -/
def resolve (vars : List (String × String)) (rnd : JNum) : Operand → JSVal
  | .num q => .num q
  | .tok val =>
    if startsWithS val "\"" && endsWithS val "\"" then
      .str (dropRightS 1 (dropS 1 val))
    else
      match jsParseFloat val with
      | some q => .num q
      | none =>
        if lowStr val == "true" then .boolv true
        else if lowStr val == "false" then .boolv false
        else if upStr val == "RANDOM" then .num rnd
        else
          match getVariable vars (cleanVar val) with
          | some v => v
          | none => .num 0

/-- The operator dispatch of `parseExpression` (src/index.js:168-180):
note the operator string is compared case-SENSITIVELY, and an unknown
operator evaluates to `false`. -/
def evalOp (vars : List (String × String)) (r1 r2 : JNum) (l : Operand) (op : String)
    (r : Operand) : Bool :=
  let v1 := resolve vars r1 l
  let v2 := resolve vars r2 r
  if op == ">" then jsGt v1 v2
  else if op == "<" then jsLt v1 v2
  else if op == ">=" then jsGe v1 v2
  else if op == "<=" then jsLe v1 v2
  else if op == "==" then jsEq v1 v2
  else if op == "=" then jsEq v1 v2
  else if op == "!=" then !jsEq v1 v2
  else if op == "CONTAINS" || op == "HAS" then
    strIncludes (lowStr (jsToString v1)) (lowStr (jsToString v2))
  else false

/-- Content of a quoted token: the characters before the first closing
quote, and the remainder after it (fails when no closing quote exists). -/
def findClose : List Char → Option (List Char × List Char)
  | [] => none
  | '"' :: r => some ([], r)
  | c :: r => (findClose r).map (fun p => (c :: p.1, p.2))

/-- Global matching of the tokenizer regex
`/"([^"]*)"|([=><!]+)|(\S+)/g` (src/index.js:114), fueled for structural
recursion. At each position the alternatives are tried in order: a
double-quoted string (kept with its quotes, as `match` returns the full
matched text), a run of operator characters, or a greedy run of
non-whitespace characters; whitespace between matches is skipped. -/
def scanTokensF : Nat → List Char → List String
  | 0, _ => []
  | _ + 1, [] => []
  | fuel + 1, cs@(c :: rest) =>
    if wsChar c then scanTokensF fuel rest
    else if c == '"' then
      match findClose rest with
      | some (content, after) => ("\"" ++ String.mk content ++ "\"") :: scanTokensF fuel after
      | none =>
        -- no closing quote: the first alternative fails at this position and
        -- the greedy non-whitespace run matches instead
        ⟨cs.takeWhile (fun d => !wsChar d)⟩ :: scanTokensF fuel (cs.dropWhile (fun d => !wsChar d))
    else if isOpChar c then
      ⟨cs.takeWhile isOpChar⟩ :: scanTokensF fuel (cs.dropWhile isOpChar)
    else
      ⟨cs.takeWhile (fun d => !wsChar d)⟩ :: scanTokensF fuel (cs.dropWhile (fun d => !wsChar d))

/-- Model of `exprString.match(tokenRegex)`; the empty token list corresponds to the
`null` that `match` returns when nothing matches. -/
def scanTokens (s : String) : List String := scanTokensF (s.data.length + 1) s.data

/-- Model of `parseExpression` (src/index.js:108-181): tokenize; with exactly two
tokens whose first is an operator run the missing left operand defaults to
the literal `0`; with three or more tokens the first three are
left/op/right; anything else evaluates to `false`. `r1` and `r2` are the
random draws available to the two operand resolutions. -/
def parseExpression (vars : List (String × String)) (r1 r2 : JNum) (e : String) : Bool :=
  match scanTokens e with
  | [a, b] => if isOpRun a then evalOp vars r1 r2 (.num 0) a (.tok b) else false
  | a :: b :: c :: _ => evalOp vars r1 r2 (.tok a) b (.tok c)
  | _ => false

/-- One execution-stack entry (`{ ignore, metCondition }`,
src/index.js:102): `ignore` suppresses output and side effects inside the
block, `metCondition` records that some branch of this block already
fired. -/
structure Frame where
  ignore : Bool
  metCondition : Bool
deriving DecidableEq

/-- The external collaborators of one `evaluateLogic` call: the
`substituteParams` macro expansion, the `Math.random` stream, and the chat
log (most recent message last) used by the `LAST_MESSAGE` keyword. -/
structure Env where
  subst : String → String
  rand : ℕ → JNum
  chat : List String

/-- The interpreter's mutable state: the execution stack (top frame
first), the variable store, the output buffer, and the position in the
random stream. -/
structure EvalState where
  stack : List Frame
  vars : List (String × String)
  output : String
  rctr : ℕ
deriving DecidableEq

/-- The bottom frame the stack starts with (`ignore: false,
metCondition: false`). -/
def initFrame : Frame := ⟨false, false⟩

/-- Fresh state for one interpreter call over a given variable store. -/
def initState (vars : List (String × String)) : EvalState := ⟨[initFrame], vars, "", 0⟩

/-- The identity environment: no macro expansion, a constant-zero random
stream, an empty chat. -/
def envId : Env := ⟨id, fun _ => 0, []⟩

/-- The directive a (substituted, trimmed, upper-cased) line dispatches
to; the constructors are ordered exactly like the if/else chain of
src/index.js:220-363. -/
inductive Directive where
  | ifD | elseIfD | elseD | endD | sayD | setD | setvarD | noneD
deriving DecidableEq

/-- The directive-recognition chain (src/index.js:220,245,284,303,309,318,332):
case-insensitive prefix tests in priority order, except that END is an
exact equality test (`upperLine === "END"`); a line matching nothing is a
no-op. The argument is the already substituted+trimmed+upper-cased line. -/
def directiveOf (u : String) : Directive :=
  if startsWithS u "IF " then .ifD
  else if startsWithS u "ELSE IF " then .elseIfD
  else if startsWithS u "ELSE" then .elseD
  else if u == "END" then .endD
  else if startsWithS u "SAY " then .sayD
  else if startsWithS u "SET " then .setD
  else if startsWithS u "SETVAR " then .setvarD
  else .noneD

/-- Strip one layer of surrounding double quotes, if present
(`text.startsWith('"') && text.endsWith('"')` then `slice(1, -1)`). -/
def stripQuotes (t : String) : String :=
  if startsWithS t "\"" && endsWithS t "\"" then dropRightS 1 (dropS 1 t) else t

/-- The `LAST_MESSAGE` pre-processing of a condition string
(src/index.js:230-239): if the keyword occurs, every occurrence is
replaced by the quoted text of the most recent chat message, with embedded
double quotes rewritten to single quotes; an empty chat contributes the
empty string. -/
def substLastMessage (env : Env) (cond : String) : String :=
  if strIncludes cond "LAST_MESSAGE" then
    let msg :=
      match env.chat.getLast? with
      | some m => replaceAllS m "\"" "'"
      | none => ""
    replaceAllS cond "LAST_MESSAGE" ("\"" ++ msg ++ "\"")
  else cond

/-- The simple type inference of SETVAR (src/index.js:343-357): quoted →
string with quotes stripped; numeric (prefix parse succeeds AND the whole
string is finite) → number; case-insensitive true/false → boolean;
otherwise the raw string. -/
def inferSetvarVal (raw : String) : JSVal :=
  if startsWithS raw "\"" && endsWithS raw "\"" then .str (dropRightS 1 (dropS 1 raw))
  else if ((jsParseFloat raw).isSome && (jsToNumber raw).isSome) then
    .num ((jsParseFloat raw).getD 0)
  else if lowStr raw == "true" then .boolv true
  else if lowStr raw == "false" then .boolv false
  else .str raw

/-- The directive dispatch on a substituted line (src/index.js:212-363),
acting on a state whose stack is `cur :: below`. `setVariable` always
stores `value.toString()`, hence the `jsToString` at the SET/SETVAR
writes. -/
def dispatchLine (env : Env) (s : EvalState) (cur : Frame) (below : List Frame)
    (line : String) : EvalState :=
  match directiveOf (upStr (trimS line)) with
  | .ifD =>
    if cur.ignore then ⟨⟨true, true⟩ :: cur :: below, s.vars, s.output, s.rctr⟩
    else
      let cond := substLastMessage env (trimS (dropS 3 line))
      let res := parseExpression s.vars (env.rand s.rctr) (env.rand (s.rctr + 1)) cond
      ⟨⟨!res, res⟩ :: cur :: below, s.vars, s.output, s.rctr + 2⟩
  | .elseIfD =>
    match below with
    | [] => ⟨cur :: below, s.vars, s.output ++ "[Error: ELSE IF without IF]", s.rctr⟩
    | parent :: _ =>
      if parent.ignore then ⟨⟨true, true⟩ :: below, s.vars, s.output, s.rctr⟩
      else if cur.metCondition then
        ⟨⟨true, cur.metCondition⟩ :: below, s.vars, s.output, s.rctr⟩
      else
        let cond := substLastMessage env (trimS (dropS 8 line))
        let res := parseExpression s.vars (env.rand s.rctr) (env.rand (s.rctr + 1)) cond
        ⟨⟨!res, if res then true else cur.metCondition⟩ :: below, s.vars, s.output, s.rctr + 2⟩
  | .elseD =>
    match below with
    | [] => ⟨cur :: below, s.vars, s.output ++ "[Error: ELSE without IF]", s.rctr⟩
    | parent :: _ =>
      if parent.ignore then ⟨⟨true, cur.metCondition⟩ :: below, s.vars, s.output, s.rctr⟩
      else if cur.metCondition then ⟨⟨true, cur.metCondition⟩ :: below, s.vars, s.output, s.rctr⟩
      else ⟨⟨false, true⟩ :: below, s.vars, s.output, s.rctr⟩
  | .endD =>
    match below with
    | [] => ⟨cur :: below, s.vars, s.output, s.rctr⟩
    | _ :: _ => ⟨below, s.vars, s.output, s.rctr⟩
  | .sayD =>
    if cur.ignore then ⟨cur :: below, s.vars, s.output, s.rctr⟩
    else
      ⟨cur :: below, s.vars,
        s.output ++ stripQuotes (trimS (dropS 4 line)) ++ " ", s.rctr⟩
  | .setD =>
    if cur.ignore then ⟨cur :: below, s.vars, s.output, s.rctr⟩
    else
      match jsSplit '=' (dropS 4 line).data [] with
      | [a, b] =>
        ⟨cur :: below, setVar s.vars (trimS a) (stripQuotes (trimS b)), s.output, s.rctr⟩
      | _ => ⟨cur :: below, s.vars, s.output, s.rctr⟩
  | .setvarD =>
    if cur.ignore then ⟨cur :: below, s.vars, s.output, s.rctr⟩
    else
      let content := trimS (dropS 7 line)
      match content.data.findIdx? (fun c => c == ' ') with
      | none => ⟨cur :: below, s.vars, s.output, s.rctr⟩
      | some i =>
        let varName := trimS ⟨content.data.take i⟩
        let raw := trimS ⟨content.data.drop (i + 1)⟩
        ⟨cur :: below, setVar s.vars varName (jsToString (inferSetvarVal raw)), s.output, s.rctr⟩
  | .noneD => ⟨cur :: below, s.vars, s.output, s.rctr⟩

/-- One loop iteration of `evaluateLogic` (src/index.js:183-364) on a raw
line. When the top frame is suppressed the raw (unsubstituted) line is
inspected first: an IF pushes a doubly-dead frame without substitution, a
line that neither starts with ELSE nor equals END is skipped outright, and
only ELSE/ELSE IF/END lines fall through to substitution and dispatch. -/
def stepLine (env : Env) (s : EvalState) (rawLine : String) : EvalState :=
  match s.stack with
  | [] => s
  | cur :: below =>
    let upperRaw := upStr (trimS rawLine)
    if cur.ignore && startsWithS upperRaw "IF " then
      ⟨⟨true, true⟩ :: cur :: below, s.vars, s.output, s.rctr⟩
    else if cur.ignore && !startsWithS upperRaw "ELSE" && !(upperRaw == "END") then
      s
    else
      dispatchLine env s cur below (env.subst rawLine)

/-- Run the interpreter over a list of (already split and trimmed)
lines. -/
def execLines (env : Env) (s : EvalState) : List String → EvalState
  | [] => s
  | l :: ls => execLines env (stepLine env s l) ls

/-- The line splitting of src/index.js:97: split on `\r?\n`, trim each
line, drop empties. -/
def linesOf (script : String) : List String :=
  ((splitCRLF script.data []).map trimS).filter (fun l => !(l == ""))

/-- Model of `evaluateLogic(script)` (src/index.js:96-367) over a given environment
and initial variable store: run all lines from the initial single-frame
state and return the trimmed output buffer. -/
def evaluateLogic (env : Env) (vars : List (String × String)) (script : String) : String :=
  trimS (execLines env (initState vars) (linesOf script)).output

/-! ## Stack invariants

The execution stack is kept with the innermost (top) frame first; the
bottom frame is the initial one. `monoStack` expresses that suppression
propagates downward into nesting: whenever a frame is suppressed, every
frame above it (nearer the head) is suppressed too — equivalently, the
suppressed frames form a prefix of the list. -/

/-- Every frame in the list is active (not suppressed). -/
def allActive (l : List Frame) : Bool := l.all fun g => !g.ignore

/-- Suppression is monotone from bottom to top: an active frame has only
active frames beneath it. -/
def monoStack : List Frame → Bool
  | [] => true
  | f :: rest => (f.ignore || allActive rest) && monoStack rest

/-- The bottom frame of the stack. -/
def lastFrame : List Frame → Option Frame
  | [] => none
  | [f] => some f
  | _ :: rest => lastFrame rest

/-- The execution-stack well-formedness invariant: the bottom frame is the
untouched initial frame, and suppression is monotone. -/
def StackInv (st : List Frame) : Prop :=
  lastFrame st = some initFrame ∧ monoStack st = true

instance (st : List Frame) : Decidable (StackInv st) := by
  unfold StackInv; infer_instance

lemma lastFrame_cons_of_ne_nil (a : Frame) {l : List Frame} (h : l ≠ []) :
    lastFrame (a :: l) = lastFrame l := by
  cases l with
  | nil => exact absurd rfl h
  | cons b t => rfl

lemma monoStack_tail {f : Frame} {rest : List Frame} (h : monoStack (f :: rest) = true) :
    monoStack rest = true := by
  simp only [monoStack, Bool.and_eq_true] at h
  exact h.2

lemma monoStack_head_active {f : Frame} {rest : List Frame}
    (h : monoStack (f :: rest) = true) (hf : f.ignore = false) :
    allActive rest = true := by
  simp only [monoStack, Bool.and_eq_true, Bool.or_eq_true] at h
  rcases h.1 with h1 | h1
  · rw [hf] at h1; cases h1
  · exact h1

lemma allActive_monoStack {l : List Frame} (h : allActive l = true) : monoStack l = true := by
  induction l with
  | nil => rfl
  | cons f rest ih =>
    simp only [allActive, List.all_cons, Bool.and_eq_true] at h
    simp only [monoStack, Bool.and_eq_true, Bool.or_eq_true]
    exact ⟨Or.inr h.2, ih h.2⟩

lemma monoStack_cons_true {rest : List Frame} (m : Bool) (h : monoStack rest = true) :
    monoStack (⟨true, m⟩ :: rest) = true := by
  simp [monoStack, h]

lemma monoStack_cons_of_allActive (f : Frame) {rest : List Frame}
    (h : allActive rest = true) : monoStack (f :: rest) = true := by
  simp only [monoStack, Bool.and_eq_true, Bool.or_eq_true]
  exact ⟨Or.inr h, allActive_monoStack h⟩

lemma stackInv_push_any {cur : Frame} {below : List Frame} (m : Bool)
    (h : StackInv (cur :: below)) : StackInv (⟨true, m⟩ :: cur :: below) :=
  ⟨h.1, monoStack_cons_true m h.2⟩

lemma stackInv_push_active {cur : Frame} {below : List Frame} (b m : Bool)
    (h : StackInv (cur :: below)) (hc : cur.ignore = false) :
    StackInv (⟨b, m⟩ :: cur :: below) := by
  refine ⟨h.1, ?_⟩
  apply monoStack_cons_of_allActive
  simp only [allActive, List.all_cons, Bool.and_eq_true, hc, Bool.not_false, true_and]
  exact monoStack_head_active h.2 hc

lemma stackInv_replaceTop_true {cur parent : Frame} {tail : List Frame} (m : Bool)
    (h : StackInv (cur :: parent :: tail)) : StackInv (⟨true, m⟩ :: parent :: tail) :=
  ⟨h.1, monoStack_cons_true m (monoStack_tail h.2)⟩

lemma stackInv_replaceTop {cur parent : Frame} {tail : List Frame} (b m : Bool)
    (h : StackInv (cur :: parent :: tail)) (hp : parent.ignore = false) :
    StackInv (⟨b, m⟩ :: parent :: tail) := by
  refine ⟨h.1, ?_⟩
  apply monoStack_cons_of_allActive
  simp only [allActive, List.all_cons, Bool.and_eq_true, hp, Bool.not_false, true_and]
  exact monoStack_head_active (monoStack_tail h.2) hp

lemma stackInv_pop {cur parent : Frame} {tail : List Frame}
    (h : StackInv (cur :: parent :: tail)) : StackInv (parent :: tail) :=
  ⟨h.1, monoStack_tail h.2⟩

/-- The base frame forces a nonempty remainder: a suppressed top frame can
never be the bottom frame. -/
lemma below_ne_nil_of_ignored {cur : Frame} {below : List Frame}
    (h : StackInv (cur :: below)) (hc : cur.ignore = true) : below ≠ [] := by
  intro hb
  subst hb
  have : cur = initFrame := by
    have := h.1
    simp only [lastFrame, Option.some.injEq] at this
    exact this
  rw [this] at hc
  simp [initFrame] at hc

/-- Dispatch (`dispatchLine`) preserves the stack invariant. -/
lemma stackInv_dispatchLine (env : Env) (s : EvalState) (cur : Frame) (below : List Frame)
    (line : String) (h : StackInv (cur :: below)) :
    StackInv (dispatchLine env s cur below line).stack := by
  unfold dispatchLine
  cases hd : directiveOf (upStr (trimS line)) with
  | ifD =>
    by_cases hc : cur.ignore
    · simpa [hc] using stackInv_push_any true h
    · simp only [Bool.not_eq_true] at hc
      simpa [hc] using stackInv_push_active _ _ h hc
  | elseIfD =>
    cases below with
    | nil => simpa using h
    | cons parent tail =>
      by_cases hp : parent.ignore
      · simpa [hp] using stackInv_replaceTop_true true h
      · simp only [Bool.not_eq_true] at hp
        by_cases hm : cur.metCondition
        · simpa [hp, hm] using stackInv_replaceTop _ _ h hp
        · simpa [hp, hm] using stackInv_replaceTop _ _ h hp
  | elseD =>
    cases below with
    | nil => simpa using h
    | cons parent tail =>
      by_cases hp : parent.ignore
      · simpa [hp] using stackInv_replaceTop_true cur.metCondition h
      · simp only [Bool.not_eq_true] at hp
        by_cases hm : cur.metCondition
        · simpa [hp, hm] using stackInv_replaceTop _ _ h hp
        · simpa [hp, hm] using stackInv_replaceTop _ _ h hp
  | endD =>
    cases below with
    | nil => simpa using h
    | cons parent tail => simpa using stackInv_pop h
  | sayD =>
    by_cases hc : cur.ignore <;> simpa [hc] using h
  | setD =>
    by_cases hc : cur.ignore
    · simpa [hc] using h
    · rcases hsp : jsSplit '=' (dropS 4 line).data [] with _ | ⟨a, _ | ⟨b, _ | _⟩⟩ <;>
        simpa [hc, hsp] using h
  | setvarD =>
    by_cases hc : cur.ignore
    · simpa [hc] using h
    · rcases hsp : (trimS (dropS 7 line)).data.findIdx? (fun c => c == ' ') with _ | i <;>
        simpa [hc, hsp] using h
  | noneD => simpa using h

/-- Stepping (`stepLine`) preserves the stack invariant. -/
lemma stackInv_stepLine (env : Env) (s : EvalState) (rawLine : String)
    (h : StackInv s.stack) : StackInv (stepLine env s rawLine).stack := by
  unfold stepLine
  rcases hst : s.stack with _ | ⟨cur, below⟩
  · rw [hst] at h; exact absurd h.1 (by simp [lastFrame])
  · rw [hst] at h
    by_cases h1 : cur.ignore && startsWithS (upStr (trimS rawLine)) "IF "
    · simpa [h1] using stackInv_push_any true h
    · simp only [h1, if_false]
      by_cases h2 : cur.ignore && !startsWithS (upStr (trimS rawLine)) "ELSE"
          && !(upStr (trimS rawLine) == "END")
      · simpa [h2, hst] using h
      · simpa [h2] using stackInv_dispatchLine env s cur below (env.subst rawLine) h

/-- Running (`execLines`) preserves the stack invariant. -/
lemma stackInv_execLines (env : Env) (lines : List String) (s : EvalState)
    (h : StackInv s.stack) : StackInv (execLines env s lines).stack := by
  induction lines generalizing s with
  | nil => exact h
  | cons l ls ih => exact ih _ (stackInv_stepLine env s l h)

/-- While the top frame is suppressed, a step changes neither the output
buffer nor the variable store (on a well-formed stack the error-marker
branches are unreachable, every condition evaluation only reads, and the
SAY/SET/SETVAR bodies are guarded). -/
lemma stepLine_pure_of_ignored (env : Env) (s : EvalState) (rawLine : String)
    {cur : Frame} {below : List Frame} (hst : s.stack = cur :: below)
    (hc : cur.ignore = true) (hinv : StackInv s.stack) :
    (stepLine env s rawLine).output = s.output ∧ (stepLine env s rawLine).vars = s.vars := by
  have hb : below ≠ [] := below_ne_nil_of_ignored (hst ▸ hinv) hc
  unfold stepLine
  rw [hst]
  by_cases h1 : startsWithS (upStr (trimS rawLine)) "IF "
  · simp [hc, h1]
  · by_cases h2 : !startsWithS (upStr (trimS rawLine)) "ELSE" && !(upStr (trimS rawLine) == "END")
    · simp [hc, h1, h2]
    · simp only [hc, h1, Bool.and_false, Bool.false_and, Bool.and_true, Bool.true_and, h2,
        if_false, Bool.false_eq_true]
      unfold dispatchLine
      cases hd : directiveOf (upStr (trimS (env.subst rawLine))) with
      | ifD => simp [hc]
      | elseIfD =>
        cases below with
        | nil => exact absurd rfl hb
        | cons parent tail =>
          by_cases hp : parent.ignore
          · simp [hp]
          · by_cases hm : cur.metCondition <;> simp [hp, hm]
      | elseD =>
        cases below with
        | nil => exact absurd rfl hb
        | cons parent tail =>
          by_cases hp : parent.ignore
          · simp [hp]
          · by_cases hm : cur.metCondition <;> simp [hp, hm]
      | endD =>
        cases below with
        | nil => exact absurd rfl hb
        | cons parent tail => simp
      | sayD => simp [hc]
      | setD => simp [hc]
      | setvarD => simp [hc]
      | noneD => simp

/-! ## Directive recognition lemmas -/

lemma startsWithL_append {l p : List Char} (h : startsWithL l p = true) :
    ∃ t, l = p ++ t := by
  induction p generalizing l with
  | nil => exact ⟨l, rfl⟩
  | cons c p ih =>
    cases l with
    | nil => simp [startsWithL] at h
    | cons a l' =>
      simp only [startsWithL, Bool.and_eq_true, beq_iff_eq] at h
      obtain ⟨t, ht⟩ := ih h.2
      exact ⟨t, by rw [h.1, ht, List.cons_append]⟩

lemma directiveOf_ifD {u : String} (h : startsWithS u "IF " = true) :
    directiveOf u = .ifD := by
  simp [directiveOf, h]

lemma directiveOf_elseIfD {u : String} (h : startsWithS u "ELSE IF " = true) :
    directiveOf u = .elseIfD := by
  have h' : startsWithL u.data ("ELSE IF ".data) = true := h
  obtain ⟨t, ht⟩ := startsWithL_append h'
  have hif : startsWithS u "IF " = false := by
    simp only [startsWithS, ht]
    simp [startsWithL]
  simp [directiveOf, hif, h]

lemma directiveOf_elseD {u : String} (h : startsWithS u "ELSE" = true)
    (h2 : startsWithS u "ELSE IF " = false) : directiveOf u = .elseD := by
  have h' : startsWithL u.data ("ELSE".data) = true := h
  obtain ⟨t, ht⟩ := startsWithL_append h'
  have hif : startsWithS u "IF " = false := by
    simp only [startsWithS, ht]
    simp [startsWithL]
  simp [directiveOf, hif, h2, h]

lemma directiveOf_endD_iff (u : String) : directiveOf u = .endD ↔ u = "END" := by
  constructor
  · intro h
    unfold directiveOf at h
    split_ifs at h
    all_goals simp_all
  · intro h
    subst h
    decide

lemma directiveOf_setD {u : String} (h : startsWithS u "SET " = true) :
    directiveOf u = .setD := by
  have h' : startsWithL u.data ("SET ".data) = true := h
  obtain ⟨t, ht⟩ := startsWithL_append h'
  have h1 : startsWithS u "IF " = false := by
    simp only [startsWithS, ht]; simp [startsWithL]
  have h2 : startsWithS u "ELSE IF " = false := by
    simp only [startsWithS, ht]; simp [startsWithL]
  have h3 : startsWithS u "ELSE" = false := by
    simp only [startsWithS, ht]; simp [startsWithL]
  have h4 : (u == "END") = false := by
    have hne : u ≠ "END" := by
      intro he
      rw [he] at ht
      simp at ht
    simp [hne]
  have h5 : startsWithS u "SAY " = false := by
    simp only [startsWithS, ht]; simp [startsWithL]
  simp [directiveOf, h1, h2, h3, h4, h5, h]

/-! ## Case-insensitivity of recognition -/

lemma upChar_cases (c : Char) :
    upChar c = c ∨ (upChar c ∈ ['A','B','C','D','E','F','G','H','I','J','K','L','M',
      'N','O','P','Q','R','S','T','U','V','W','X','Y','Z'] ∧
      c ∈ ['a','b','c','d','e','f','g','h','i','j','k','l','m',
      'n','o','p','q','r','s','t','u','v','w','x','y','z']) := by
  unfold upChar
  split <;> simp_all

lemma upChar_idem (c : Char) : upChar (upChar c) = upChar c := by
  rcases upChar_cases c with h | ⟨h1, _⟩
  · rw [h, h]
  · have hall : ∀ d ∈ ['A','B','C','D','E','F','G','H','I','J','K','L','M',
      'N','O','P','Q','R','S','T','U','V','W','X','Y','Z'], upChar d = d := by decide
    exact hall _ h1

lemma wsChar_upChar (c : Char) : wsChar (upChar c) = wsChar c := by
  rcases upChar_cases c with h | ⟨h1, h2⟩
  · rw [h]
  · have hu : ∀ d ∈ ['A','B','C','D','E','F','G','H','I','J','K','L','M',
      'N','O','P','Q','R','S','T','U','V','W','X','Y','Z'], wsChar d = false := by decide
    have hl : ∀ d ∈ ['a','b','c','d','e','f','g','h','i','j','k','l','m',
      'n','o','p','q','r','s','t','u','v','w','x','y','z'], wsChar d = false := by decide
    rw [hu _ h1, hl _ h2]

lemma upStr_idem (s : String) : upStr (upStr s) = upStr s := by
  simp only [upStr, List.map_map]
  congr 1
  exact List.map_congr_left fun a _ => upChar_idem a

lemma trimS_upStr (s : String) : trimS (upStr s) = upStr (trimS s) := by
  have hws : (wsChar ∘ upChar) = wsChar := funext wsChar_upChar
  have hrev : ∀ l : List Char, (l.map upChar).reverse = l.reverse.map upChar := by
    intro l
    rw [List.map_reverse]
  simp only [trimS, upStr]
  congr 1
  rw [List.dropWhile_map, hws, hrev, List.dropWhile_map, hws, hrev]

/-- Dispatch sees a line only through `upStr ∘ trimS`, so it cannot
distinguish a line from its upper-cased form. -/
lemma directiveOf_case_insensitive (l : String) :
    directiveOf (upStr (trimS (upStr l))) = directiveOf (upStr (trimS l)) := by
  rw [trimS_upStr, upStr_idem]

lemma head_ignored_of_any {cur : Frame} {below : List Frame}
    (hm : monoStack (cur :: below) = true)
    (ha : (cur :: below).any (fun f => f.ignore) = true) : cur.ignore = true := by
  by_contra hcf
  simp only [Bool.not_eq_true] at hcf
  have hact := monoStack_head_active hm hcf
  simp only [List.any_cons, Bool.or_eq_true, hcf] at ha
  rcases ha with h | h
  · cases h
  · obtain ⟨f, hf, hfi⟩ := List.any_eq_true.mp h
    have hall := List.all_eq_true.mp hact f hf
    simp only [hfi, Bool.not_true] at hall
    cases hall

lemma initState_inv (vars : List (String × String)) : StackInv (initState vars).stack := by
  constructor <;> rfl

/-! ## Claims -/

set_option maxHeartbeats 2000000

/-- Claim C1, counterexample: The four-line script written exactly as the
claim gives it — with the conditions spelled `1==1`, no spaces — does NOT
return `"A"`: the tokenizer's greedy non-whitespace alternative swallows
`1==1` as a single token, both conditions fail to parse and evaluate
false, and the script returns the empty string. -/
theorem c1_unspaced_counterexample :
    evaluateLogic envId [] "IF 1==1\nSAY \"A\"\nELSE IF 1==1\nSAY \"B\"\nEND" = "" ∧
    evaluateLogic envId [] "IF 1==1\nSAY \"A\"\nELSE IF 1==1\nSAY \"B\"\nEND" ≠ "A" := by
  decide

/-- Claim C1, amended: With the conditions written with spaces (`1 == 1`),
the script returns exactly `"A"`: the first true branch is taken and the
later ELSE IF is never evaluated (the run consumes random draws only for
the initial IF — final counter 2 — and the result is independent of the
variable store and the random stream) even though its condition is also
true. -/
theorem c1_first_true_branch_wins (r : ℕ → JNum) (vars : List (String × String)) :
    evaluateLogic ⟨id, r, []⟩ vars "IF 1 == 1\nSAY \"A\"\nELSE IF 1 == 1\nSAY \"B\"\nEND" = "A" ∧
    (execLines ⟨id, r, []⟩ (initState vars)
      (linesOf "IF 1 == 1\nSAY \"A\"\nELSE IF 1 == 1\nSAY \"B\"\nEND")).rctr = 2 :=
  ⟨rfl, rfl⟩

/-- Closed instance of `c1_first_true_branch_wins`. -/
theorem c1_first_true_branch_wins_witness :
    evaluateLogic envId [] "IF 1 == 1\nSAY \"A\"\nELSE IF 1 == 1\nSAY \"B\"\nEND" = "A" :=
  (c1_first_true_branch_wins (fun _ => 0) []).1

/-- Claim C3: Suppression propagates downward: starting from the initial
state, after any number of lines of any script the stack is monotone
(every frame above a suppressed frame is itself suppressed); and one step
on any well-formed state in which some frame is suppressed — in
particular a `SAY` at any nesting depth inside a suppressed outer block —
leaves the output buffer untouched. -/
theorem c3_suppression_monotone (env : Env) (vars : List (String × String))
    (lines : List String) :
    monoStack (execLines env (initState vars) lines).stack = true ∧
    (∀ s ℓ, StackInv s.stack → s.stack.any (fun f => f.ignore) = true →
      (stepLine env s ℓ).output = s.output) := by
  constructor
  · exact (stackInv_execLines env lines _ (initState_inv vars)).2
  · intro s ℓ hinv hany
    rcases hstack : s.stack with _ | ⟨cur, below⟩
    · rw [hstack] at hany
      cases hany
    · rw [hstack] at hinv hany
      have hc : cur.ignore = true := head_ignored_of_any hinv.2 hany
      exact (stepLine_pure_of_ignored env s ℓ hstack hc (hstack ▸ hinv)).1

/-- Closed instance of `c3_suppression_monotone`: a SAY under a suppressed
frame stacked over the active base frame emits nothing. -/
theorem c3_suppression_monotone_witness :
    (stepLine envId ⟨[⟨true, true⟩, initFrame], [("k", "v")], "out", 4⟩ "SAY \"A\"").output
      = "out" :=
  (c3_suppression_monotone envId [] []).2
    ⟨[⟨true, true⟩, initFrame], [("k", "v")], "out", 4⟩ "SAY \"A\"" (by decide) (by decide)

/-- Claim C4: The stack is never empty: from the initial state, after any
number of lines the stack still ends in the untouched initial frame
(`suppressed = false`, `anyBranchMatched = false`), and an END arriving at
stack depth 1 is a complete no-op. -/
theorem c4_base_frame_invariant (env : Env) (vars : List (String × String))
    (lines : List String) :
    (execLines env (initState vars) lines).stack ≠ [] ∧
    lastFrame (execLines env (initState vars) lines).stack = some initFrame ∧
    (∀ s ℓ, s.stack = [initFrame] → upStr (trimS (env.subst ℓ)) = "END" →
      stepLine env s ℓ = s) := by
  have hinv := stackInv_execLines env lines (initState vars) (initState_inv vars)
  refine ⟨?_, hinv.1, ?_⟩
  · intro h
    rw [h] at hinv
    exact absurd hinv.1 (by simp [lastFrame])
  · intro s ℓ hs hend
    obtain ⟨st, vv, oo, rr⟩ := s
    simp only at hs
    subst hs
    unfold stepLine
    simp only [initFrame, Bool.false_and, if_false, Bool.false_eq_true]
    unfold dispatchLine
    rw [hend]
    rfl

/-- Closed instance of `c4_base_frame_invariant`: END on the lone base
frame changes nothing. -/
theorem c4_base_frame_invariant_witness :
    stepLine envId (initState []) "END" = initState [] :=
  (c4_base_frame_invariant envId [] []).2.2 (initState []) "END" rfl (by decide)

/-- Claim C5, counterexample: After `SET y = TRUE` the value read back is
the STRING `"TRUE"`, not the boolean `true`: `normalizeValue` compares
against `"true"`/`"false"` with case-sensitive `===`, so the upper-case
spelling is not coerced. -/
theorem c5_true_coercion_counterexample :
    getVariable (execLines envId (initState []) ["SET y = TRUE"]).vars "y"
      = some (JSVal.str "TRUE") ∧
    getVariable (execLines envId (initState []) ["SET y = TRUE"]).vars "y"
      ≠ some (JSVal.boolv true) := by
  decide

/-- Claim C5, amended: Values read back from the store are coerced:
numeric-looking strings become the numbers they denote (`SET x = 5` makes
`x == 5` true), and the exact lower-case strings `"true"`/`"false"` become
booleans; the comparison is case-sensitive, so any other capitalization
(e.g. the `"TRUE"` written by `SET y = TRUE`) stays a string. -/
theorem c5_store_coercion :
    evaluateLogic envId [] "SET x = 5\nIF x == 5\nSAY \"Y\"\nEND" = "Y" ∧
    normalizeValue "5" = JSVal.num 5 ∧
    normalizeValue "3.5" = JSVal.num ⟨35, 10⟩ ∧
    normalizeValue "true" = JSVal.boolv true ∧
    normalizeValue "false" = JSVal.boolv false ∧
    normalizeValue "TRUE" = JSVal.str "TRUE" ∧
    normalizeValue "True" = JSVal.str "True" ∧
    getVariable (execLines envId (initState []) ["SET x = 5"]).vars "x"
      = some (JSVal.num 5) := by
  decide

/-- Claim C2, counterexample: Substitution IS invoked — observably — on an
ELSE IF line processed while the top frame is suppressed, and that line's
condition IS evaluated. Two substitution capabilities that agree on every
line except `"ELSE IF 1 == 1"` (a line processed, in both runs, while the
top frame is suppressed: after the first line the top frame has
`ignore = true` in both runs) produce different outputs: `"X"` under the
identity substitution versus `""` when substitution rewrites the dead
branch's ELSE IF condition. -/
theorem c2_suppressed_substitution_counterexample :
    (∀ l : String, l ≠ "ELSE IF 1 == 1" →
      envId.subst l =
        (⟨fun l => if l == "ELSE IF 1 == 1" then "ELSE IF 1 == 2" else l,
          fun _ => 0, []⟩ : Env).subst l) ∧
    (execLines envId (initState []) ["IF 1 == 2"]).stack.head?.map Frame.ignore
      = some true ∧
    (execLines (⟨fun l => if l == "ELSE IF 1 == 1" then "ELSE IF 1 == 2" else l,
        fun _ => 0, []⟩ : Env) (initState []) ["IF 1 == 2"]).stack.head?.map Frame.ignore
      = some true ∧
    evaluateLogic envId [] "IF 1 == 2\nELSE IF 1 == 1\nSAY \"X\"\nEND" = "X" ∧
    evaluateLogic (⟨fun l => if l == "ELSE IF 1 == 1" then "ELSE IF 1 == 2" else l,
        fun _ => 0, []⟩ : Env) [] "IF 1 == 2\nELSE IF 1 == 1\nSAY \"X\"\nEND" = "" := by
  refine ⟨?_, by decide, by decide, by decide, by decide⟩
  intro l hl
  have hb : (l == "ELSE IF 1 == 1") = false := by simp [hl]
  simp [envId, hb]

/-- Claim C2, amended: While the top frame is suppressed, only the four
structural keywords steer the fast path, judged on the RAW line: an IF
line pushes a doubly-suppressed frame without any use of the substitution
capability (the step is identical under any two substitution
capabilities), a line that neither starts with ELSE nor equals END is
skipped outright without substitution, but ELSE / ELSE IF / END lines DO
fall through to substitution and normal dispatch (where an ELSE IF whose
parent frame is active may still evaluate its condition); in every case a
step under a suppressed top frame leaves the output buffer and the
variable store unchanged. -/
theorem c2_suppressed_fast_path (sub sub2 : String → String) (r : ℕ → JNum)
    (chat : List String) (s : EvalState) (ℓ : String) (cur : Frame) (below : List Frame)
    (hst : s.stack = cur :: below) (hc : cur.ignore = true) :
    (startsWithS (upStr (trimS ℓ)) "IF " = true →
      stepLine ⟨sub, r, chat⟩ s ℓ = ⟨⟨true, true⟩ :: cur :: below, s.vars, s.output, s.rctr⟩ ∧
      stepLine ⟨sub, r, chat⟩ s ℓ = stepLine ⟨sub2, r, chat⟩ s ℓ) ∧
    (startsWithS (upStr (trimS ℓ)) "IF " = false →
      startsWithS (upStr (trimS ℓ)) "ELSE" = false →
      (upStr (trimS ℓ) == "END") = false →
      stepLine ⟨sub, r, chat⟩ s ℓ = s ∧
      stepLine ⟨sub, r, chat⟩ s ℓ = stepLine ⟨sub2, r, chat⟩ s ℓ) ∧
    (StackInv s.stack →
      (stepLine ⟨sub, r, chat⟩ s ℓ).output = s.output ∧
      (stepLine ⟨sub, r, chat⟩ s ℓ).vars = s.vars) := by
  refine ⟨?_, ?_, ?_⟩
  · intro h1
    constructor
    · unfold stepLine
      rw [hst]
      simp [hc, h1]
    · unfold stepLine
      rw [hst]
      simp [hc, h1]
  · intro h1 h2 h3
    constructor
    · unfold stepLine
      rw [hst]
      simp [hc, h1, h2, h3]
    · unfold stepLine
      rw [hst]
      simp [hc, h1, h2, h3]
  · intro hinv
    exact stepLine_pure_of_ignored ⟨sub, r, chat⟩ s ℓ hst hc hinv

/-- Closed instance of `c2_suppressed_fast_path`: a SAY inside a
suppressed frame is skipped with no state change. -/
theorem c2_suppressed_fast_path_witness :
    stepLine envId ⟨[⟨true, false⟩, initFrame], [], "", 0⟩ "SAY \"hi\""
      = ⟨[⟨true, false⟩, initFrame], [], "", 0⟩ :=
  ((c2_suppressed_fast_path id id (fun _ => 0) []
      ⟨[⟨true, false⟩, initFrame], [], "", 0⟩ "SAY \"hi\"" ⟨true, false⟩ [initFrame]
      rfl rfl).2.1 (by decide) (by decide) (by decide)).1

/-- Claim C6, counterexample: `SET x = a=b` writes nothing: the source splits
`line.substring(4)` on EVERY `=` (`split("=")`) and requires exactly two
parts, so a value containing `=` yields three parts and the directive is
ignored — `x` is not bound afterwards. -/
theorem c6_set_equals_counterexample :
    (execLines envId (initState []) ["SET x = a=b"]).vars = [] ∧
    getVariable (execLines envId (initState []) ["SET x = a=b"]).vars "x" = none := by
  decide

/-- Claim C6, amended: An active SET splits the directive text after the
keyword on `=` and requires exactly two parts — so a value containing `=`
makes the directive a silent no-op — and otherwise trims both parts,
strips one layer of surrounding double quotes from the value, and writes
the raw string to the variable store. -/
theorem c6_set_split (env : Env) (s : EvalState) (ℓ : String) (cur : Frame)
    (below : List Frame) (hst : s.stack = cur :: below) (hc : cur.ignore = false)
    (hset : startsWithS (upStr (trimS (env.subst ℓ))) "SET " = true) :
    stepLine env s ℓ =
      match jsSplit '=' (dropS 4 (env.subst ℓ)).data [] with
      | [a, b] => { s with vars := setVar s.vars (trimS a) (stripQuotes (trimS b)) }
      | _ => s := by
  obtain ⟨st, vv, oo, rr⟩ := s
  simp only at hst
  subst hst
  unfold stepLine
  simp only [hc, Bool.false_and, if_false, Bool.false_eq_true]
  unfold dispatchLine
  rw [directiveOf_setD hset]
  simp only [hc, Bool.false_eq_true, if_false]

/-- Closed instance of `c6_set_split`. -/
theorem c6_set_split_witness :
    stepLine envId ⟨[initFrame], [], "", 0⟩ "SET a = \"v\""
      = ⟨[initFrame], [("a", "v")], "", 0⟩ :=
  (c6_set_split envId ⟨[initFrame], [], "", 0⟩ "SET a = \"v\"" initFrame [] rfl rfl
    (by decide)).trans (by decide)

/-- Claim C7, counterexample: A line beginning with the END keyword but with
trailing content is NOT recognized as END — `upperLine === "END"` is an
exact equality test, not a prefix test. `"END X"` leaves a two-frame
stack untouched where recognition as END would pop it, and inside a dead
branch `"END X"` fails to close the block (output `""`) while a bare
`"END"` does close it (output `"B"`). -/
theorem c7_end_prefix_counterexample :
    startsWithS (upStr (trimS "END X")) "END" = true ∧
    stepLine envId ⟨[initFrame, initFrame], [], "", 0⟩ "END X"
      = ⟨[initFrame, initFrame], [], "", 0⟩ ∧
    evaluateLogic envId [] "IF 1 == 2\nEND X\nSAY \"B\"" = "" ∧
    evaluateLogic envId [] "IF 1 == 2\nEND\nSAY \"B\"" = "B" := by
  decide

/-- Claim C7, amended: Directive recognition on the substituted line is
case-insensitive (dispatch sees a line only through trim + upper-case,
which cannot distinguish a line from its upper-cased form) and matches
prefixes in the priority order IF, ELSE IF, ELSE, END, SAY, SET, SETVAR
with the first match winning — in particular an ELSE IF line is never
handled as plain ELSE — EXCEPT that END is recognized by exact equality
of the whole trimmed upper-cased line rather than by prefix; a line
matching no directive is a silent no-op. -/
theorem c7_dispatch_priority :
    (∀ u, startsWithS u "IF " = true → directiveOf u = .ifD) ∧
    (∀ u, startsWithS u "ELSE IF " = true → directiveOf u = .elseIfD) ∧
    (∀ u, startsWithS u "ELSE" = true → startsWithS u "ELSE IF " = false →
      directiveOf u = .elseD) ∧
    (∀ u, directiveOf u = .endD ↔ u = "END") ∧
    (∀ l, directiveOf (upStr (trimS (upStr l))) = directiveOf (upStr (trimS l))) ∧
    (∀ (env : Env) (s : EvalState) (ℓ : String) (cur : Frame) (below : List Frame),
      s.stack = cur :: below → cur.ignore = false →
      directiveOf (upStr (trimS (env.subst ℓ))) = .noneD → stepLine env s ℓ = s) := by
  refine ⟨fun u h => directiveOf_ifD h, fun u h => directiveOf_elseIfD h,
    fun u h h2 => directiveOf_elseD h h2, directiveOf_endD_iff,
    directiveOf_case_insensitive, ?_⟩
  intro env s ℓ cur below hst hc hnone
  obtain ⟨st, vv, oo, rr⟩ := s
  simp only at hst
  subst hst
  unfold stepLine
  simp only [hc, Bool.false_and, if_false, Bool.false_eq_true]
  unfold dispatchLine
  rw [hnone]

/-- Closed instance of `c7_dispatch_priority`: an unrecognized line is a
no-op. -/
theorem c7_dispatch_priority_witness :
    stepLine envId ⟨[initFrame], [], "", 0⟩ "HELLO WORLD" = ⟨[initFrame], [], "", 0⟩ :=
  c7_dispatch_priority.2.2.2.2.2 envId ⟨[initFrame], [], "", 0⟩ "HELLO WORLD"
    initFrame [] rfl rfl (by decide)

/-- Claim C8: An ELSE IF or ELSE reaching dispatch at stack depth 1 (the
active base frame, i.e. no enclosing IF) appends exactly the literal
marker `[Error: ELSE IF without IF]` resp. `[Error: ELSE without IF]` to
the output and changes nothing else — the stack, store and random counter
are untouched, so subsequent lines still execute against the base frame;
end to end, `ELSE` followed by `SAY "B"` yields the marker immediately
followed by `B`. -/
theorem c8_else_without_if (env : Env) (s : EvalState) (ℓ : String) (cur : Frame)
    (hst : s.stack = [cur]) (hc : cur.ignore = false) :
    (startsWithS (upStr (trimS (env.subst ℓ))) "ELSE IF " = true →
      stepLine env s ℓ = { s with output := s.output ++ "[Error: ELSE IF without IF]" }) ∧
    (startsWithS (upStr (trimS (env.subst ℓ))) "ELSE" = true →
      startsWithS (upStr (trimS (env.subst ℓ))) "ELSE IF " = false →
      stepLine env s ℓ = { s with output := s.output ++ "[Error: ELSE without IF]" }) ∧
    evaluateLogic envId [] "ELSE\nSAY \"B\"" = "[Error: ELSE without IF]B" := by
  obtain ⟨st, vv, oo, rr⟩ := s
  simp only at hst
  subst hst
  refine ⟨?_, ?_, by decide⟩
  · intro h1
    unfold stepLine
    simp only [hc, Bool.false_and, if_false, Bool.false_eq_true]
    unfold dispatchLine
    rw [directiveOf_elseIfD h1]
  · intro h1 h2
    unfold stepLine
    simp only [hc, Bool.false_and, if_false, Bool.false_eq_true]
    unfold dispatchLine
    rw [directiveOf_elseD h1 h2]

/-- Closed instance of `c8_else_without_if`. -/
theorem c8_else_without_if_witness :
    stepLine envId (initState []) "ELSE"
      = ⟨[initFrame], [], "[Error: ELSE without IF]", 0⟩ :=
  ((c8_else_without_if envId (initState []) "ELSE" initFrame rfl rfl).2.1
    (by decide) (by decide)).trans (by decide)

/-- Claim C9: When a condition tokenizes to exactly two tokens whose first
is an operator run (the left operand is missing, e.g. substitution left
`< 12`), the evaluator supplies the literal number `0` as the left operand
instead of failing; concretely `< 12` evaluates as `0 < 12`, i.e. true,
for every store and random draw. -/
theorem c9_missing_lhs (vars : List (String × String)) (r1 r2 : JNum)
    (e t1 t2 : String) (h1 : scanTokens e = [t1, t2]) (h2 : isOpRun t1 = true) :
    parseExpression vars r1 r2 e = evalOp vars r1 r2 (.num 0) t1 (.tok t2) ∧
    parseExpression vars r1 r2 "< 12" = true := by
  constructor
  · unfold parseExpression
    rw [h1]
    simp [h2]
  · rfl

/-- Closed instance of `c9_missing_lhs`. -/
theorem c9_missing_lhs_witness : parseExpression [] 0 0 "< 12" = true :=
  (c9_missing_lhs [] 0 0 "< 12" "<" "12" (by decide) (by decide)).2

/-- Claim C10: The operator token of a condition is matched
case-sensitively, unlike the directive keywords: whenever the middle
token is not literally one of `>`, `<`, `>=`, `<=`, `==`, `=`, `!=`,
`CONTAINS`, `HAS`, the condition evaluates to false — so a substring test
written `contains` in lower case always evaluates false, while the
upper-case spelling works. -/
theorem c10_operator_case_sensitive (vars : List (String × String)) (r1 r2 : JNum)
    (e a op b : String) (rest : List String)
    (h1 : scanTokens e = a :: op :: b :: rest)
    (h2 : op ∉ ([">", "<", ">=", "<=", "==", "=", "!=", "CONTAINS", "HAS"] : List String)) :
    parseExpression vars r1 r2 e = false ∧
    parseExpression vars r1 r2 "\"a\" contains \"a\"" = false ∧
    parseExpression vars r1 r2 "\"a\" has \"a\"" = false ∧
    parseExpression vars r1 r2 "\"a\" CONTAINS \"a\"" = true ∧
    parseExpression vars r1 r2 "\"a\" HAS \"a\"" = true := by
  refine ⟨?_, rfl, rfl, rfl, rfl⟩
  simp only [List.mem_cons, List.not_mem_nil, or_false, not_or] at h2
  obtain ⟨n1, n2, n3, n4, n5, n6, n7, n8, n9⟩ := h2
  unfold parseExpression
  rw [h1]
  unfold evalOp
  simp [n1, n2, n3, n4, n5, n6, n7, n8, n9]

/-- Closed instance of `c10_operator_case_sensitive`. -/
theorem c10_operator_case_sensitive_witness :
    parseExpression [] 0 0 "1 LT 2" = false :=
  (c10_operator_case_sensitive [] 0 0 "1 LT 2" "1" "LT" "2" []
    (by decide) (by decide)).1

end SimpleLogic
